/-
Verification of the data ingestion, validation and aggregation engine of
the vyaaparik-ai-llm repository (src/lib/data-processing.ts and the
low-stock pipeline of src/lib/demo-data.ts).

The TypeScript code manipulates dynamically typed JavaScript values: a
record field can hold a number, a string, be absent (`undefined`), or be
`NaN`.  We embed this value space as the inductive type `JVal` and give
the JavaScript primitive operations the code relies on (`||`, `+`, `/`,
`*`, `<`, `Number`, `parseFloat`, property access, truthiness) as
executable Lean functions.  JavaScript numbers are modelled by exact
rationals (`ℚ`); IEEE rounding is not modelled, and the non-finite
values `Infinity`/`-Infinity` are collapsed into the `nan` constructor
(none of the theorems exercises them).
-/
import Mathlib

/-- A JavaScript runtime value as it can appear in a decoded CSV record:
a (finite) number, a string, `undefined` (also standing for an absent
field), or `NaN`. -/
inductive JVal where
  | num (x : ℚ)
  | str (s : String)
  | undefined
  | nan
deriving DecidableEq

namespace JVal

/-- JavaScript truthiness: `0`, `""`, `undefined` and `NaN` are falsy. -/
def truthy : JVal → Bool
  | num x => x ≠ 0
  | str s => s ≠ ""
  | undefined => false
  | nan => false

/-- Whether the value is a string. -/
def isStr : JVal → Prop
  | str _ => True
  | _ => False

instance : DecidablePred isStr := by
  intro v; cases v <;> simp [isStr] <;> infer_instance

/-- Whether the value is a (finite) number. -/
def isNum : JVal → Prop
  | num _ => True
  | _ => False

instance : DecidablePred isNum := by
  intro v; cases v <;> simp [isNum] <;> infer_instance

end JVal

/-- Decimal digits of a natural number (most significant first), with
explicit fuel so that the definition is structurally recursive.  The fuel
`n + 1` always suffices. -/
def natDigitChars : Nat → Nat → List Char
  | 0, _ => []
  | fuel + 1, n =>
    if n < 10 then [Char.ofNat (48 + n)]
    else natDigitChars fuel (n / 10) ++ [Char.ofNat (48 + n % 10)]

/-- Decimal rendering of a natural number. -/
def natToStr (n : Nat) : String := ⟨natDigitChars (n + 1) n⟩

/-- Decimal rendering of an integer. -/
def intToStr (i : Int) : String :=
  if i < 0 then "-" ++ natToStr i.natAbs else natToStr i.natAbs

/-- JavaScript `ToString` on a number.  Integers are rendered in decimal
exactly as JavaScript does; non-integral rationals are rendered as a
fraction `p/q`, a stand-in for JavaScript's decimal expansion (no theorem
below depends on the rendering of a non-integral number). -/
def ratToStr (x : ℚ) : String :=
  if x.den = 1 then intToStr x.num else intToStr x.num ++ "/" ++ natToStr x.den

/-- JavaScript `ToString`. -/
def jsToString : JVal → String
  | .num x => ratToStr x
  | .str s => s
  | .undefined => "undefined"
  | .nan => "NaN"

/-- Numeric value of a list of decimal digit characters. -/
def digitsVal (ds : List Char) : Nat :=
  ds.foldl (fun n c => 10 * n + (c.toNat - 48)) 0

/-- Rational value of an integer part and a fraction part given as digit
lists, e.g. `12` and `5` for `12.5`: `(i * 10^k + f) / 10^k` where `k` is
the number of fraction digits. -/
def decValue (intDs fracDs : List Char) : ℚ :=
  mkRat (digitsVal intDs * 10 ^ fracDs.length + digitsVal fracDs) (10 ^ fracDs.length)

/-- Parse an unsigned decimal literal (`digits`, `digits.digits?`, or
`.digits`) from the front of a character list, returning its value and
the unconsumed remainder. -/
def parseDecLit (cs : List Char) : Option (ℚ × List Char) :=
  let intPart := cs.takeWhile (·.isDigit)
  let r1 := cs.dropWhile (·.isDigit)
  match r1 with
  | '.' :: r2 =>
    let fracPart := r2.takeWhile (·.isDigit)
    let r3 := r2.dropWhile (·.isDigit)
    if intPart.isEmpty && fracPart.isEmpty then none
    else some (decValue intPart fracPart, r3)
  | _ =>
    if intPart.isEmpty then none
    else some (mkRat (Int.ofNat (digitsVal intPart)) 1, r1)

/-- Parse an exponent part `e`/`E` followed by an optionally signed digit
string.  Returns `none` (consuming nothing) when the exponent part is
absent or malformed, as JavaScript's number grammars do. -/
def parseExpLit (cs : List Char) : Option (Int × List Char) :=
  match cs with
  | c :: r1 =>
    if c = 'e' || c = 'E' then
      match r1 with
      | '+' :: r2 =>
        let ds := r2.takeWhile (·.isDigit)
        if ds.isEmpty then none else some (Int.ofNat (digitsVal ds), r2.dropWhile (·.isDigit))
      | '-' :: r2 =>
        let ds := r2.takeWhile (·.isDigit)
        if ds.isEmpty then none else some (-Int.ofNat (digitsVal ds), r2.dropWhile (·.isDigit))
      | _ =>
        let ds := r1.takeWhile (·.isDigit)
        if ds.isEmpty then none else some (Int.ofNat (digitsVal ds), r1.dropWhile (·.isDigit))
    else none
  | [] => none

/-- Parse an optionally signed decimal literal with optional exponent
from the front of a character list.  This is the common core of
JavaScript's `parseFloat` and `Number(string)`; the `Infinity` form and
the hex/octal/binary forms of `Number` are not modelled (no theorem
exercises them). -/
def parseNumLit (cs : List Char) : Option (ℚ × List Char) :=
  let signed : Option (ℚ × List Char) :=
    match cs with
    | '+' :: r => parseDecLit r
    | '-' :: r => (parseDecLit r).map (fun p => (-p.1, p.2))
    | _ => parseDecLit cs
  match signed with
  | none => none
  | some (q, r) =>
    match parseExpLit r with
    | some (e, r2) =>
      some (if 0 ≤ e then q * mkRat (Int.ofNat (10 ^ e.toNat)) 1
            else q * mkRat 1 (10 ^ (-e).toNat), r2)
    | none => some (q, r)

/-- JavaScript `parseFloat`: skip leading whitespace, then parse the
longest numeric prefix; `none` models a `NaN` result. -/
def jsParseFloat (s : String) : Option ℚ :=
  (parseNumLit (s.data.dropWhile (·.isWhitespace))).map (·.1)

/-- JavaScript `Number(string)`: the whole trimmed string must be a
numeric literal; the empty (or all-whitespace) string converts to `0`;
`none` models a `NaN` result. -/
def strToNumber (s : String) : Option ℚ :=
  let cs := (s.data.dropWhile (·.isWhitespace)).reverse.dropWhile (·.isWhitespace) |>.reverse
  if cs.isEmpty then some 0
  else match parseNumLit cs with
    | some (q, []) => some q
    | _ => none

/-- JavaScript `ToNumber`; `none` models `NaN`. -/
def jsToNumber : JVal → Option ℚ
  | .num x => some x
  | .str s => strToNumber s
  | .undefined => none
  | .nan => none

/-- JavaScript `a || b`. -/
def jsOr (a b : JVal) : JVal := if a.truthy then a else b

/-- JavaScript `a + b`: string concatenation when either operand is a
string, numeric addition otherwise. -/
def jsAdd (a b : JVal) : JVal :=
  match a, b with
  | .str s, b => .str (s ++ jsToString b)
  | a, .str t => .str (jsToString a ++ t)
  | a, b =>
    match jsToNumber a, jsToNumber b with
    | some x, some y => .num (x + y)
    | _, _ => .nan

/-- JavaScript `a / b` (division by zero, which JavaScript sends to
`±Infinity`, is collapsed into `nan`; every use in the code is guarded
by a positive-length test). -/
def jsDiv (a b : JVal) : JVal :=
  match jsToNumber a, jsToNumber b with
  | some x, some y => if y = 0 then .nan else .num (x / y)
  | _, _ => .nan

/-- JavaScript `a * b`. -/
def jsMul (a b : JVal) : JVal :=
  match jsToNumber a, jsToNumber b with
  | some x, some y => .num (x * y)
  | _, _ => .nan

/-- JavaScript `a < b`: string comparison when both operands are
strings, numeric comparison otherwise (`false` when a side is `NaN`). -/
def jsLt (a b : JVal) : Bool :=
  match a, b with
  | .str s, .str t => decide (s < t)
  | a, b =>
    match jsToNumber a, jsToNumber b with
    | some x, some y => decide (x < y)
    | _, _ => false

/-! ### Record types (data-processing.ts, interfaces)

Every field is a `JVal`: the TypeScript annotations promise numbers and
strings, but at runtime a CSV cell whose numeric coercion failed is still
a string, and an absent optional field is `undefined`. -/

/-- `SalesData` (data-processing.ts). -/
structure SalesData where
  Date : JVal
  Product : JVal
  Category : JVal
  Quantity : JVal
  Amount : JVal
  Customer_Age : JVal
  Location : JVal
deriving DecidableEq

/-- `InventoryData` (data-processing.ts). -/
structure InventoryData where
  Product : JVal
  Category : JVal
  Stock : JVal
  Price : JVal
  Supplier : JVal
  Min_Alert : JVal
deriving DecidableEq

/-- `ReviewData` (data-processing.ts). -/
structure ReviewData where
  Date : JVal
  Rating : JVal
  Review : JVal
  Product : JVal
  Platform : JVal
deriving DecidableEq

/-- `BusinessSummary` (data-processing.ts).  `totalOrders` is always the
integer `salesData.length`; `sentimentScore` is always a finite number;
the remaining numeric fields can dynamically be strings or `NaN`, so they
stay `JVal`. -/
structure BusinessSummary where
  totalRevenue : JVal
  totalOrders : Nat
  averageOrderValue : JVal
  topProducts : List (String × JVal)
  lowStockItems : List (JVal × JVal)
  averageRating : JVal
  sentimentScore : ℚ
deriving DecidableEq

/-! ### The aggregation engine (generateBusinessSummary) -/

/-- `salesData.reduce((sum, sale) => sum + (sale.Amount || 0), 0)`. -/
def salesTotalRevenue (salesData : List SalesData) : JVal :=
  salesData.foldl (fun sum sale => jsAdd sum (jsOr sale.Amount (.num 0))) (.num 0)

/-- One step of the `productRevenue` reduce:
`acc[product] = (acc[product] || 0) + (sale.Amount || 0)`, on an
association list in object-key insertion order (an existing key keeps
its position, a new key is appended). -/
def bumpKey (k : String) (amt : JVal) : List (String × JVal) → List (String × JVal)
  | [] => [(k, jsAdd (jsOr .undefined (.num 0)) amt)]
  | (k', v) :: rest =>
    if k' = k then (k', jsAdd (jsOr v (.num 0)) amt) :: rest
    else (k', v) :: bumpKey k amt rest

/-- The `productRevenue` accumulator object, as an association list in
insertion order.  The property key is `ToString` of `sale.Product`, as
JavaScript's property access performs.  (JavaScript additionally
enumerates integer-like keys first; that can only permute ties of the
revenue sort below, whose tie order no claim constrains.) -/
def productRevenue (salesData : List SalesData) : List (String × JVal) :=
  salesData.foldl
    (fun acc sale => bumpKey (jsToString sale.Product) (jsOr sale.Amount (.num 0)) acc) []

/-- The comparator `([, a], [, b]) => b - a` of the `topProducts` sort,
mapped into the ECMAScript sort ordering: the result of a comparator
call that is `NaN` is treated as `0`. -/
def topCmp (a b : String × JVal) : ℚ :=
  match jsToNumber b.2, jsToNumber a.2 with
  | some y, some x => y - x
  | _, _ => 0

/-- `a` may stay before `b` under the `topProducts` comparator. -/
def topLe (a b : String × JVal) : Prop := topCmp a b ≤ 0

instance : DecidableRel topLe := fun a b => by unfold topLe; infer_instance

/-- `Object.entries(productRevenue).sort(([, a], [, b]) => b - a)
.slice(0, 5).map(([product, revenue]) => ({product, revenue}))`.
JavaScript's sort is stable, which `List.insertionSort` matches. -/
def topProductsOf (salesData : List SalesData) : List (String × JVal) :=
  (((productRevenue salesData).insertionSort topLe).take 5).map (fun p => (p.1, p.2))

/-- The comparator `(a, b) => a.Stock - b.Stock` of the low-stock sort
(`NaN` results again treated as `0`). -/
def stockCmp (a b : InventoryData) : ℚ :=
  match jsToNumber a.Stock, jsToNumber b.Stock with
  | some x, some y => x - y
  | _, _ => 0

/-- `a` may stay before `b` under the low-stock comparator. -/
def stockLe (a b : InventoryData) : Prop := stockCmp a b ≤ 0

instance : DecidableRel stockLe := fun a b => by unfold stockLe; infer_instance

/-- `inventoryData.filter(item => item.Stock < (item.Min_Alert || 5))
.sort((a, b) => a.Stock - b.Stock).slice(0, 10)
.map(item => ({product: item.Product, stock: item.Stock}))`. -/
def lowStockItemsOf (inventoryData : List InventoryData) : List (JVal × JVal) :=
  ((((inventoryData.filter
      (fun item => jsLt item.Stock (jsOr item.Min_Alert (.num 5)))).insertionSort
        stockLe).take 10).map (fun item => (item.Product, item.Stock)))

/-- `reviewData.reduce((sum, review) => sum + (review.Rating || 0), 0)`. -/
def reviewsTotalRating (reviewData : List ReviewData) : JVal :=
  reviewData.foldl (fun sum review => jsAdd sum (jsOr review.Rating (.num 0))) (.num 0)

/-- `const positiveWords = [...]` (data-processing.ts line 100). -/
def positiveWords : List String :=
  ["good", "great", "excellent", "amazing", "love", "perfect", "wonderful"]

/-- `const negativeWords = [...]` (data-processing.ts line 101). -/
def negativeWords : List String :=
  ["bad", "terrible", "awful", "hate", "worst", "horrible", "disappointing"]

/-- `listStartsWith p t`: the character list `t` starts with `p`. -/
def listStartsWith : List Char → List Char → Bool
  | [], _ => true
  | _ :: _, [] => false
  | c :: p, d :: t => c = d && listStartsWith p t

/-- `listOccursIn p t`: `p` occurs as a contiguous run inside `t`. -/
def listOccursIn (p t : List Char) : Bool :=
  match t with
  | [] => p.isEmpty
  | _ :: t' => listStartsWith p t || listOccursIn p t'

/-- JavaScript `text.includes(word)`: substring containment. -/
def strIncludes (text word : String) : Bool := listOccursIn word.data text.data

/-- The per-review sentiment contribution for a review text `s`:
`positiveWords.filter(w => text.includes(w)).length -
 negativeWords.filter(w => text.includes(w)).length`
with `text = s.toLowerCase()`. -/
def sentimentDelta (s : String) : Int :=
  let text := s.toLower
  ((positiveWords.filter (fun w => strIncludes text w)).length : Int) -
    ((negativeWords.filter (fun w => strIncludes text w)).length : Int)

/-- The `sentimentScore` accumulation loop.  `review.Review.toLowerCase()`
throws a `TypeError` when `Review` is not a string; `none` models that
exception aborting `generateBusinessSummary`. -/
def sentimentTotal : List ReviewData → Option Int
  | [] => some 0
  | review :: rest =>
    match review.Review with
    | .str s => (sentimentTotal rest).map (fun t => sentimentDelta s + t)
    | _ => none

/-- `generateBusinessSummary` (data-processing.ts lines 66-124).  `none`
models the `TypeError` thrown at `review.Review.toLowerCase()` when some
review's `Review` field is not a string; in every other case the function
returns a summary. -/
def generateBusinessSummary (salesData : List SalesData)
    (inventoryData : List InventoryData) (reviewData : List ReviewData) :
    Option BusinessSummary :=
  let totalRevenue := salesTotalRevenue salesData
  let totalOrders := salesData.length
  let averageOrderValue :=
    if totalOrders > 0 then jsDiv totalRevenue (.num totalOrders) else .num 0
  let topProducts := topProductsOf salesData
  let lowStockItems := lowStockItemsOf inventoryData
  let totalRating := reviewsTotalRating reviewData
  let averageRating :=
    if reviewData.length > 0 then jsDiv totalRating (.num reviewData.length) else .num 0
  match sentimentTotal reviewData with
  | none => none
  | some sentimentScore =>
    let normalizedSentiment : ℚ :=
      if reviewData.length > 0 then
        max (-1) (min 1 ((sentimentScore : ℚ) / (reviewData.length : ℚ)))
      else 0
    some {
      totalRevenue := totalRevenue
      totalOrders := totalOrders
      averageOrderValue := averageOrderValue
      topProducts := topProducts
      lowStockItems := lowStockItems
      averageRating := averageRating
      sentimentScore := normalizedSentiment
    }

/-! ### The demo low-stock pipeline (demo-data.ts lines 115-119) -/

/-- `inventory.filter(item => item.Stock < item.Min_Alert!)
.sort((a, b) => a.Stock - b.Stock).slice(0, 5)
.map(item => ({product: item.Product, stock: item.Stock}))`.
The non-null assertion `!` is a compile-time cast only; at runtime an
absent `Min_Alert` is `undefined` and the comparison is simply `false`. -/
def demoLowStockItems (inventory : List InventoryData) : List (JVal × JVal) :=
  ((((inventory.filter
      (fun item => jsLt item.Stock item.Min_Alert)).insertionSort
        stockLe).take 5).map (fun item => (item.Product, item.Stock)))

/-! ### The record decoder's numeric coercion (parseCsvFile, lines 45-52) -/

/-- The fixed column set of the decoder's numeric coercion. -/
def numericFields : List String :=
  ["Quantity", "Amount", "Stock", "Price", "Rating", "Customer_Age", "Min_Alert"]

/-- The `transform` callback of `Papa.parse`: cells of columns in
`numericFields` are parsed with `parseFloat` and replaced by the number
on success; every other cell, and every failed parse, keeps the original
text. -/
def transform (value : String) (header : String) : JVal :=
  if numericFields.contains header then
    match jsParseFloat value with
    | some num => .num num
    | none => .str value
  else .str value

/-! ### The schema validators (validateSalesData / validateInventoryData /
validateReviewData) -/

/-- A decoded row: an untyped field map, as an association list in key
order (JavaScript objects cannot hold duplicate keys; lookups take the
first occurrence). -/
def Row := List (String × JVal)

instance : DecidableEq Row := by unfold Row; infer_instance

/-- JavaScript `field in row`. -/
def rowHas (row : Row) (field : String) : Bool := row.any (fun kv => kv.1 = field)

/-- JavaScript `row.field` (absent fields read as `undefined`). -/
def rowGet (row : Row) (field : String) : JVal :=
  match row.find? (fun kv => kv.1 = field) with
  | some kv => kv.2
  | none => .undefined

/-- The result record of the validators. -/
structure ValidationResult where
  valid : Bool
  errors : List String
deriving DecidableEq

/-- The required-field pass shared by the three validators:
`requiredFields.forEach(field => { if (!(field in firstRow))
errors.push(...) })`. -/
def missingFieldErrors (fields : List String) (firstRow : Row) : List String :=
  fields.foldl
    (fun errs field =>
      if rowHas firstRow field then errs
      else errs ++ ["Missing required field: " ++ field]) []

/-- The numeric-sanity check of one sales row (0-based `index`):
`if (row.Quantity && isNaN(Number(row.Quantity))) errors.push(...)`, and
the same for `Amount`. -/
def rowTypeErrors (row : Row) (index : Nat) : List String :=
  (if (rowGet row "Quantity").truthy && (jsToNumber (rowGet row "Quantity")).isNone then
    ["Row " ++ natToStr (index + 1) ++ ": Quantity must be a number"]
  else []) ++
  (if (rowGet row "Amount").truthy && (jsToNumber (rowGet row "Amount")).isNone then
    ["Row " ++ natToStr (index + 1) ++ ": Amount must be a number"]
  else [])

/-- The `data.slice(0, 5).forEach((row, index) => ...)` pass, with the
running 0-based index made explicit. -/
def typeErrorsFrom (index : Nat) : List Row → List String
  | [] => []
  | row :: rest => rowTypeErrors row index ++ typeErrorsFrom (index + 1) rest

/-- `validateSalesData` (data-processing.ts lines 126-153). -/
def validateSalesData (data : List Row) : ValidationResult :=
  if data.isEmpty then { valid := false, errors := ["No data found in the file"] }
  else
    let firstRow := data.headD []
    let errors := missingFieldErrors ["Date", "Product", "Quantity", "Amount"] firstRow ++
      typeErrorsFrom 0 (data.take 5)
    { valid := errors.isEmpty, errors := errors }

/-- `validateInventoryData` (data-processing.ts lines 155-172). -/
def validateInventoryData (data : List Row) : ValidationResult :=
  if data.isEmpty then { valid := false, errors := ["No data found in the file"] }
  else
    let firstRow := data.headD []
    let errors := missingFieldErrors ["Product", "Stock", "Price"] firstRow
    { valid := errors.isEmpty, errors := errors }

/-- `validateReviewData` (data-processing.ts lines 174-191). -/
def validateReviewData (data : List Row) : ValidationResult :=
  if data.isEmpty then { valid := false, errors := ["No data found in the file"] }
  else
    let firstRow := data.headD []
    let errors := missingFieldErrors ["Date", "Rating", "Review", "Product"] firstRow
    { valid := errors.isEmpty, errors := errors }

/-! ### Record constructors used by concrete instances -/

/-- A sales record carrying only a product and an amount (all other
fields absent), as a partially-missing decoded row. -/
def mkSale (product amount : JVal) : SalesData :=
  ⟨.undefined, product, .undefined, .undefined, amount, .undefined, .undefined⟩

/-- An inventory record carrying a product, a stock level and a
`Min_Alert` threshold. -/
def mkItem (product stock minAlert : JVal) : InventoryData :=
  ⟨product, .undefined, stock, .undefined, .undefined, minAlert⟩

/-- A review record carrying a rating and a review text. -/
def mkReview (rating review : JVal) : ReviewData :=
  ⟨.undefined, rating, review, .undefined, .undefined⟩

/-! ### Specification-side recomputations

These definitions follow the wording of the specification (sums of
amounts with missing amounts as zero, thresholds, filters over required
fields) rather than the JavaScript operator semantics; the theorems
relate them to the embedded code. -/

/-- The numeric content of a `JVal`, with `0` for every non-number. -/
def jvalQ : JVal → ℚ
  | .num q => q
  | _ => 0

/-- The amount of a sales record, missing amounts read as `0`. -/
def amountQ (s : SalesData) : ℚ := jvalQ s.Amount

/-- Spec: `totalRevenue` is the sum of the amounts. -/
def specTotalRevenue (sales : List SalesData) : ℚ := (sales.map amountQ).sum

/-- Spec: the accumulated sentiment delta over all reviews (non-string
review texts contribute `0`; the theorems only use this under the
hypothesis that every review text is a string). -/
def specSentTotal (revs : List ReviewData) : Int :=
  (revs.map (fun r => match r.Review with | .str s => sentimentDelta s | _ => 0)).sum

/-- The revenue entry of a `topProducts` pair, as a rational. -/
def revQ (p : String × JVal) : ℚ := jvalQ p.2

/-- Spec ordering of `topProducts`: non-increasing revenue. -/
def specRevGe (a b : String × JVal) : Prop := jvalQ b.2 ≤ jvalQ a.2

instance : DecidableRel specRevGe := fun a b => by unfold specRevGe; infer_instance

/-- The stock of an inventory record, as a rational. -/
def stockQ (i : InventoryData) : ℚ := jvalQ i.Stock

/-- Spec ordering of `lowStockItems`: non-decreasing stock. -/
def specStockLe (a b : InventoryData) : Prop := stockQ a ≤ stockQ b

instance : DecidableRel specStockLe := fun a b => by unfold specStockLe; infer_instance

/-- The effective low-stock threshold of a record: its own `Min_Alert`
when that is a non-zero number, the default `5` otherwise (JavaScript's
`Min_Alert || 5` sends a present-but-zero threshold to the default). -/
def effAlert (i : InventoryData) : ℚ :=
  match i.Min_Alert with
  | .num q => if q = 0 then 5 else q
  | _ => 5

/-- Spec recomputation of the low-stock list of the direct-upload path:
filter by `stock < effAlert`, sort non-decreasing by stock, keep the
first 10, project to `(product, stock)`. -/
def specLowStock (inv : List InventoryData) : List (JVal × JVal) :=
  ((((inv.filter (fun i => decide (stockQ i < effAlert i))).insertionSort
      specStockLe).take 10).map (fun i => (i.Product, i.Stock)))

/-- Spec recomputation of the required-field errors: the required names
absent from the first row, in list order. -/
def specMissingErrors (fields : List String) (row : Row) : List String :=
  (fields.filter (fun f => !rowHas row f)).map (fun f => "Missing required field: " ++ f)

/-! ### Helper lemmas on the JavaScript primitives -/

theorem jsAdd_num (a b : ℚ) : jsAdd (.num a) (.num b) = .num (a + b) := rfl

theorem jsOr_num_zero {v : JVal} (h : v.isNum ∨ v = .undefined) :
    jsOr v (.num 0) = .num (jvalQ v) := by
  rcases h with h | rfl
  · cases v with
    | num q =>
      by_cases hq : q = 0
      · subst hq; rfl
      · simp [jsOr, JVal.truthy, hq, jvalQ]
    | str s => exact absurd h (by simp [JVal.isNum])
    | undefined => exact absurd h (by simp [JVal.isNum])
    | nan => exact absurd h (by simp [JVal.isNum])
  · rfl

theorem salesTotalRevenue_aux (sales : List SalesData)
    (h : ∀ s ∈ sales, s.Amount.isNum ∨ s.Amount = .undefined) (t : ℚ) :
    sales.foldl (fun sum sale => jsAdd sum (jsOr sale.Amount (.num 0))) (.num t) =
      .num (t + specTotalRevenue sales) := by
  induction sales generalizing t with
  | nil => simp [specTotalRevenue]
  | cons s ss ih =>
    have hs := h s (List.mem_cons_self s ss)
    have hss : ∀ x ∈ ss, x.Amount.isNum ∨ x.Amount = .undefined :=
      fun x hx => h x (List.mem_cons_of_mem s hx)
    simp only [List.foldl_cons, jsOr_num_zero hs, jsAdd_num, ih hss]
    simp [specTotalRevenue, amountQ, add_assoc]

theorem salesTotalRevenue_eq (sales : List SalesData)
    (h : ∀ s ∈ sales, s.Amount.isNum ∨ s.Amount = .undefined) :
    salesTotalRevenue sales = .num (specTotalRevenue sales) := by
  have := salesTotalRevenue_aux sales h 0
  simpa [salesTotalRevenue] using this

theorem sentimentTotal_eq (revs : List ReviewData)
    (h : ∀ r ∈ revs, r.Review.isStr) :
    sentimentTotal revs = some (specSentTotal revs) := by
  induction revs with
  | nil => simp [sentimentTotal, specSentTotal]
  | cons r rs ih =>
    have hr := h r (List.mem_cons_self r rs)
    have hrs : ∀ x ∈ rs, x.Review.isStr := fun x hx => h x (List.mem_cons_of_mem r hx)
    cases hrev : r.Review with
    | str s =>
      simp [sentimentTotal, hrev, ih hrs, specSentTotal]
    | num q => rw [hrev] at hr; exact absurd hr (by simp [JVal.isStr])
    | undefined => rw [hrev] at hr; exact absurd hr (by simp [JVal.isStr])
    | nan => rw [hrev] at hr; exact absurd hr (by simp [JVal.isStr])

theorem gbs_eq (sales : List SalesData) (inv : List InventoryData)
    (revs : List ReviewData) (t : Int) (ht : sentimentTotal revs = some t) :
    generateBusinessSummary sales inv revs = some {
      totalRevenue := salesTotalRevenue sales
      totalOrders := sales.length
      averageOrderValue :=
        if sales.length > 0 then
          jsDiv (salesTotalRevenue sales) (.num (sales.length : ℚ))
        else .num 0
      topProducts := topProductsOf sales
      lowStockItems := lowStockItemsOf inv
      averageRating :=
        if revs.length > 0 then
          jsDiv (reviewsTotalRating revs) (.num (revs.length : ℚ))
        else .num 0
      sentimentScore :=
        if revs.length > 0 then
          max (-1) (min 1 ((t : ℚ) / (revs.length : ℚ)))
        else 0 } := by
  unfold generateBusinessSummary
  rw [ht]

/-! ### Helper lemmas on the validators -/

theorem missingFieldErrors_aux (row : Row) (fields : List String) :
    ∀ acc : List String,
      fields.foldl
        (fun errs field =>
          if rowHas row field then errs
          else errs ++ ["Missing required field: " ++ field]) acc =
      acc ++ specMissingErrors fields row := by
  induction fields with
  | nil => intro acc; simp [specMissingErrors]
  | cons f fs ih =>
    intro acc
    by_cases hf : rowHas row f
    · simp [List.foldl_cons, hf, ih, specMissingErrors]
    · simp [List.foldl_cons, hf, ih, specMissingErrors]

theorem missingFieldErrors_eq (fields : List String) (row : Row) :
    missingFieldErrors fields row = specMissingErrors fields row := by
  have := missingFieldErrors_aux row fields []
  simpa [missingFieldErrors] using this

theorem mem_ite_singleton {c : Prop} [Decidable c] {x e : String} :
    (e ∈ (if c then [x] else [])) ↔ c ∧ e = x := by
  split <;> simp_all

theorem mem_typeErrorsFrom {e : String} :
    ∀ (l : List Row) (n : Nat),
      e ∈ typeErrorsFrom n l ↔
        ∃ j row, l.get? j = some row ∧ e ∈ rowTypeErrors row (n + j) := by
  intro l
  induction l with
  | nil => intro n; simp [typeErrorsFrom]
  | cons row rest ih =>
    intro n
    simp only [typeErrorsFrom, List.mem_append, ih (n + 1)]
    constructor
    · rintro (hmem | ⟨j, row', hj, hmem⟩)
      · exact ⟨0, row, rfl, by simpa using hmem⟩
      · exact ⟨j + 1, row', by simpa using hj, by
          have : n + 1 + j = n + (j + 1) := by omega
          rwa [this] at hmem⟩
    · rintro ⟨j, row', hj, hmem⟩
      cases j with
      | zero =>
        left
        simp only [List.get?] at hj
        cases hj
        simpa using hmem
      | succ j =>
        right
        refine ⟨j, row', by simpa using hj, ?_⟩
        have : n + (j + 1) = n + 1 + j := by omega
        rwa [this] at hmem

/-! ### Helper lemmas on sorting -/

theorem orderedInsert_congr {α : Type} (r s : α → α → Prop)
    [DecidableRel r] [DecidableRel s] (a : α) :
    ∀ l : List α, (∀ b ∈ l, (r a b ↔ s a b)) → l.orderedInsert r a = l.orderedInsert s a := by
  intro l
  induction l with
  | nil => intro _; rfl
  | cons b bs ih =>
    intro h
    have hb := h b (List.mem_cons_self b bs)
    by_cases hrb : r a b
    · simp [List.orderedInsert, hrb, hb.mp hrb]
    · have hsb : ¬ s a b := fun hs => hrb (hb.mpr hs)
      simp [List.orderedInsert, hrb, hsb,
        ih (fun x hx => h x (List.mem_cons_of_mem b hx))]

theorem insertionSort_congr {α : Type} (r s : α → α → Prop)
    [DecidableRel r] [DecidableRel s] :
    ∀ l : List α, (∀ a ∈ l, ∀ b ∈ l, (r a b ↔ s a b)) →
      l.insertionSort r = l.insertionSort s := by
  intro l
  induction l with
  | nil => intro _; rfl
  | cons x xs ih =>
    intro h
    have hxs : ∀ a ∈ xs, ∀ b ∈ xs, (r a b ↔ s a b) := fun a ha b hb =>
      h a (List.mem_cons_of_mem x ha) b (List.mem_cons_of_mem x hb)
    simp only [List.insertionSort]
    rw [ih hxs]
    exact orderedInsert_congr r s x (xs.insertionSort s) (fun b hb =>
      h x (List.mem_cons_self x xs) b
        (List.mem_cons_of_mem x ((List.mem_insertionSort s).mp hb)))

theorem sorted_insertionSort_total {α : Type} (r : α → α → Prop) [DecidableRel r]
    (htot : ∀ a b, r a b ∨ r b a) (htrans : ∀ a b c, r a b → r b c → r a c)
    (l : List α) : (l.insertionSort r).Sorted r := by
  haveI : IsTotal α r := ⟨htot⟩
  haveI : IsTrans α r := ⟨fun a b c => htrans a b c⟩
  exact List.sorted_insertionSort r l

/-! ### Helper lemmas on sums -/

theorem sum_take_le {l : List ℚ} (h : ∀ x ∈ l, 0 ≤ x) (n : Nat) :
    (l.take n).sum ≤ l.sum := by
  conv_rhs => rw [← List.take_append_drop n l]
  rw [List.sum_append]
  have hd : 0 ≤ (l.drop n).sum :=
    List.sum_nonneg (fun x hx => h x ((l.drop_sublist n).mem hx))
  linarith

/-! ### Helper lemmas on the product-revenue accumulator -/

/-- Every revenue in the accumulator is a non-negative number. -/
def accPos (acc : List (String × JVal)) : Prop :=
  ∀ p ∈ acc, ∃ q : ℚ, p.2 = JVal.num q ∧ 0 ≤ q

/-- Total revenue held by the accumulator. -/
def accTotal (acc : List (String × JVal)) : ℚ := (acc.map revQ).sum

theorem jsOr_num_zero_self (q : ℚ) : jsOr (JVal.num q) (JVal.num 0) = JVal.num q := by
  by_cases hq : q = 0
  · subst hq; rfl
  · simp [jsOr, JVal.truthy, hq]

theorem revQ_num (k : String) (x : ℚ) : revQ (k, JVal.num x) = x := rfl

theorem bumpKey_pos_total (k : String) (a : ℚ) (ha : 0 ≤ a) :
    ∀ acc : List (String × JVal), accPos acc →
      accPos (bumpKey k (.num a) acc) ∧
        accTotal (bumpKey k (.num a) acc) = accTotal acc + a := by
  intro acc
  induction acc with
  | nil =>
    intro _
    constructor
    · intro p hp
      simp only [bumpKey, jsOr, JVal.truthy] at hp
      simp only [List.mem_singleton] at hp
      subst hp
      exact ⟨0 + a, by simp [jsAdd_num], by linarith⟩
    · simp [bumpKey, jsOr, JVal.truthy, accTotal, revQ, jsAdd_num, jvalQ]
  | cons hd rest ih =>
    intro hP
    obtain ⟨k', v⟩ := hd
    have hhd := hP (k', v) (List.mem_cons_self _ _)
    obtain ⟨q, hv, hq⟩ := hhd
    have hrest : accPos rest := fun p hp => hP p (List.mem_cons_of_mem _ hp)
    by_cases hk : k' = k
    · subst hv
      constructor
      · intro p hp
        simp only [bumpKey, hk, if_pos] at hp
        rcases List.mem_cons.mp hp with rfl | hp
        · exact ⟨q + a, by simp [jsOr_num_zero_self, jsAdd_num], by linarith⟩
        · exact hrest p hp
      · simp only [bumpKey, hk, if_pos]
        simp only [accTotal, List.map_cons, List.sum_cons, jsOr_num_zero_self,
          jsAdd_num, revQ_num]
        ring
    · obtain ⟨hPrec, hTrec⟩ := ih hrest
      constructor
      · intro p hp
        simp only [bumpKey, hk, if_neg, not_false_iff] at hp
        rcases List.mem_cons.mp hp with rfl | hp
        · exact ⟨q, hv, hq⟩
        · exact hPrec p hp
      · simp only [bumpKey, hk, if_neg, not_false_iff]
        simp only [accTotal, List.map_cons, List.sum_cons] at hTrec ⊢
        rw [hTrec]
        ring

theorem productRevenue_aux (sales : List SalesData)
    (h : ∀ s ∈ sales, ∃ q : ℚ, s.Amount = .num q ∧ 0 ≤ q) :
    ∀ acc : List (String × JVal), accPos acc →
      accPos (sales.foldl
          (fun acc sale =>
            bumpKey (jsToString sale.Product) (jsOr sale.Amount (.num 0)) acc) acc) ∧
        accTotal (sales.foldl
            (fun acc sale =>
              bumpKey (jsToString sale.Product) (jsOr sale.Amount (.num 0)) acc) acc) =
          accTotal acc + specTotalRevenue sales := by
  induction sales with
  | nil =>
    intro acc hP
    exact ⟨hP, by simp [specTotalRevenue]⟩
  | cons s ss ih =>
    intro acc hP
    obtain ⟨q, hA, hq⟩ := h s (List.mem_cons_self s ss)
    have hss : ∀ x ∈ ss, ∃ q : ℚ, x.Amount = .num q ∧ 0 ≤ q :=
      fun x hx => h x (List.mem_cons_of_mem s hx)
    have hor : jsOr s.Amount (.num 0) = .num q := by
      rw [hA, jsOr_num_zero_self]
    obtain ⟨hP1, hT1⟩ := bumpKey_pos_total (jsToString s.Product) q hq acc hP
    simp only [List.foldl_cons, hor]
    obtain ⟨hP2, hT2⟩ := ih hss _ hP1
    refine ⟨hP2, ?_⟩
    rw [hT2, hT1]
    have : amountQ s = q := by simp [amountQ, hA, jvalQ]
    simp [specTotalRevenue, this, add_assoc]

theorem productRevenue_pos_total (sales : List SalesData)
    (h : ∀ s ∈ sales, ∃ q : ℚ, s.Amount = .num q ∧ 0 ≤ q) :
    accPos (productRevenue sales) ∧
      accTotal (productRevenue sales) = specTotalRevenue sales := by
  have := productRevenue_aux sales h [] (by intro p hp; cases hp)
  simpa [productRevenue, accTotal] using this

/-! ### Claim theorems -/

/-- C6: on an empty row list each of the three validators returns
`valid = false` with error list exactly `["No data found in the file"]`. -/
theorem claim_C6 :
    validateSalesData [] = ⟨false, ["No data found in the file"]⟩ ∧
    validateInventoryData [] = ⟨false, ["No data found in the file"]⟩ ∧
    validateReviewData [] = ⟨false, ["No data found in the file"]⟩ :=
  ⟨rfl, rfl, rfl⟩

/-- C9: the decoder's coercion step parses a cell with `parseFloat`
exactly when its column is one of Quantity, Amount, Stock, Price,
Rating, Customer_Age, Min_Alert, keeping the parsed number on success
and the original text on failure; all other columns pass through
unchanged. -/
theorem claim_C9 (value header : String) :
    (header ∈ numericFields →
      (∀ q, jsParseFloat value = some q → transform value header = .num q) ∧
      (jsParseFloat value = none → transform value header = .str value)) ∧
    (header ∉ numericFields → transform value header = .str value) := by
  constructor
  · intro hmem
    have hc : numericFields.contains header = true := by
      simp [List.contains, hmem]
    constructor
    · intro q hq
      simp [transform, hc, hmem, hq]
    · intro hq
      simp [transform, hc, hmem, hq]
  · intro hmem
    have hc : numericFields.contains header = false := by
      simp [List.contains, hmem]
    simp [transform, hc, hmem]

/-- Witness for C9 at the concrete cell "3.5" in column Amount. -/
theorem claim_C9_witness : transform "3.5" "Amount" = JVal.num (mkRat 7 2) :=
  ((claim_C9 "3.5" "Amount").1 (by decide)).1 (mkRat 7 2) (by with_unfolding_all decide)

/-- C10: a non-empty inventory (resp. review) row list whose first row
carries the keys Product, Stock, Price (resp. Date, Rating, Review,
Product) validates with no errors, whatever the stored values and the
later rows. -/
theorem claim_C10 (row : Row) (rest : List Row) (row2 : Row) (rest2 : List Row)
    (h1 : rowHas row "Product" = true) (h2 : rowHas row "Stock" = true)
    (h3 : rowHas row "Price" = true)
    (h4 : rowHas row2 "Date" = true) (h5 : rowHas row2 "Rating" = true)
    (h6 : rowHas row2 "Review" = true) (h7 : rowHas row2 "Product" = true) :
    validateInventoryData (row :: rest) = ⟨true, []⟩ ∧
    validateReviewData (row2 :: rest2) = ⟨true, []⟩ := by
  constructor
  · simp [validateInventoryData, missingFieldErrors_eq, specMissingErrors,
      h1, h2, h3]
  · simp [validateReviewData, missingFieldErrors_eq, specMissingErrors,
      h4, h5, h6, h7]

/-- Witness for C10: first rows with the required keys but junk values,
later rows entirely empty. -/
theorem claim_C10_witness :
    validateInventoryData
        [[("Product", JVal.str "X"), ("Stock", JVal.str "lots"), ("Price", JVal.undefined)], []] =
      ⟨true, []⟩ ∧
    validateReviewData
        [[("Date", JVal.num 1), ("Rating", JVal.str "awful"), ("Review", JVal.undefined),
          ("Product", JVal.num 7)], [("x", JVal.nan)] ] = ⟨true, []⟩ :=
  claim_C10 _ _ _ _ (by decide) (by decide) (by decide) (by decide) (by decide)
    (by decide) (by decide)

/-- C1 counterexample: a review record whose `Review` field is missing
makes `generateBusinessSummary` throw (`undefined.toLowerCase()`), so
the function is not total over records with missing fields. -/
theorem claim_C1_cex :
    generateBusinessSummary [] [] [mkReview (.num 5) .undefined] = none := rfl

/-- C1 (amended): `generateBusinessSummary` returns a `BusinessSummary`
for every input whose review records all carry string review text —
in particular sales and inventory records may be empty or miss any
field — and the empty input yields zeroed/defaulted fields; only a
review whose `Review` field is missing or non-string makes it throw. -/
theorem claim_C1 (sales : List SalesData) (inv : List InventoryData)
    (revs : List ReviewData) (hR : ∀ r ∈ revs, r.Review.isStr) :
    (generateBusinessSummary sales inv revs).isSome = true ∧
    generateBusinessSummary [] [] [] =
      some ⟨.num 0, 0, .num 0, [], [], .num 0, 0⟩ := by
  constructor
  · rw [gbs_eq sales inv revs (specSentTotal revs) (sentimentTotal_eq revs hR)]
    rfl
  · rfl

/-- Witness for C1 on a one-record input for each dataset. -/
theorem claim_C1_witness :
    (generateBusinessSummary [mkSale (.str "A") (.num 10)]
        [mkItem (.str "X") (.num 3) .undefined]
        [mkReview (.num 5) (.str "good stuff")]).isSome = true :=
  (claim_C1 [mkSale (.str "A") (.num 10)] [mkItem (.str "X") (.num 3) .undefined]
      [mkReview (.num 5) (.str "good stuff")] (by decide)).1

/-- C2 counterexample: a non-numeric string amount is not treated as 0 —
JavaScript `+` concatenates it, so `totalRevenue` becomes the string
"0x" rather than the number 0 that the claim prescribes. -/
theorem claim_C2_cex :
    (generateBusinessSummary [mkSale (.str "A") (.str "x")] [] []).map
        BusinessSummary.totalRevenue = some (.str "0x") ∧
    JVal.str "0x" ≠ JVal.num 0 := by
  with_unfolding_all decide

/-- C2 (amended): for every sales list whose `Amount` fields are numbers
or absent (absent read as 0), `totalOrders` is the length,
`totalRevenue` the exact sum of the amounts, and `averageOrderValue`
their quotient (0 for no orders), with
`averageOrderValue * totalOrders = totalRevenue` when there are orders;
a non-numeric string amount instead string-concatenates into
`totalRevenue`. -/
theorem claim_C2 (sales : List SalesData) (inv : List InventoryData)
    (revs : List ReviewData)
    (hA : ∀ s ∈ sales, s.Amount.isNum ∨ s.Amount = .undefined)
    (hR : ∀ r ∈ revs, r.Review.isStr) :
    ∃ b, generateBusinessSummary sales inv revs = some b ∧
      b.totalOrders = sales.length ∧
      b.totalRevenue = .num (specTotalRevenue sales) ∧
      b.averageOrderValue =
        .num (if sales.length = 0 then 0
              else specTotalRevenue sales / (sales.length : ℚ)) ∧
      (0 < sales.length →
        jsMul b.averageOrderValue (.num (sales.length : ℚ)) = b.totalRevenue) := by
  refine ⟨_, gbs_eq sales inv revs (specSentTotal revs) (sentimentTotal_eq revs hR),
    rfl, salesTotalRevenue_eq sales hA, ?_, ?_⟩
  · rcases Nat.eq_zero_or_pos sales.length with h0 | hpos
    · simp [h0]
    · have hne : ((sales.length : ℚ)) ≠ 0 := by
        exact_mod_cast Nat.pos_iff_ne_zero.mp hpos
      simp only [hpos, if_pos, Nat.pos_iff_ne_zero.mp hpos, if_neg]
      rw [salesTotalRevenue_eq sales hA]
      simp [jsDiv, jsToNumber, hne, Nat.pos_iff_ne_zero.mp hpos]
  · intro hpos
    have hne : ((sales.length : ℚ)) ≠ 0 := by
      exact_mod_cast Nat.pos_iff_ne_zero.mp hpos
    simp only [hpos, if_pos]
    rw [salesTotalRevenue_eq sales hA]
    have hc : specTotalRevenue sales / (sales.length : ℚ) * (sales.length : ℚ) =
        specTotalRevenue sales := div_mul_cancel₀ _ hne
    simp [jsDiv, jsToNumber, jsMul, hne, hc]

/-- Witness for C2 on two sales records, one with a missing amount. -/
theorem claim_C2_witness :
    ∃ b, generateBusinessSummary [mkSale (.str "A") (.num 10), mkSale (.str "B") .undefined]
        [] [] = some b ∧
      b.totalOrders = 2 ∧ b.totalRevenue = JVal.num 10 ∧
      b.averageOrderValue = JVal.num 5 ∧
      jsMul b.averageOrderValue (.num ((2 : Nat) : ℚ)) = b.totalRevenue := by
  obtain ⟨b, h1, h2, h3, h4, h5⟩ :=
    claim_C2 [mkSale (.str "A") (.num 10), mkSale (.str "B") .undefined] [] []
      (by decide) (by decide)
  have e1 : specTotalRevenue [mkSale (.str "A") (.num 10), mkSale (.str "B") .undefined] = 10 := by
    with_unfolding_all decide
  have e2 : (if ([mkSale (.str "A") (.num 10), mkSale (.str "B") .undefined].length) = 0 then (0:ℚ)
      else specTotalRevenue [mkSale (.str "A") (.num 10), mkSale (.str "B") .undefined] /
        (([mkSale (.str "A") (.num 10), mkSale (.str "B") .undefined].length : Nat) : ℚ)) = 5 := by
    with_unfolding_all decide
  exact ⟨b, h1, h2, by rw [h3, e1], by rw [h4, e2], h5 (by decide)⟩

/-- C4: under the `ReviewData` contract (review text is a string) the
sentiment score is exactly `clamp(totalDelta / reviewCount, -1, 1)`
with the per-review delta counted by distinct case-insensitive
substring lexicon matches, is 0 on an empty review list, and always
lies in [-1, 1]. -/
theorem claim_C4 (sales : List SalesData) (inv : List InventoryData)
    (revs : List ReviewData) (hR : ∀ r ∈ revs, r.Review.isStr) :
    ∃ b, generateBusinessSummary sales inv revs = some b ∧
      b.sentimentScore =
        (if revs.length = 0 then 0
         else max (-1) (min 1 ((specSentTotal revs : ℚ) / (revs.length : ℚ)))) ∧
      (revs = [] → b.sentimentScore = 0) ∧
      -1 ≤ b.sentimentScore ∧ b.sentimentScore ≤ 1 := by
  refine ⟨_, gbs_eq sales inv revs (specSentTotal revs) (sentimentTotal_eq revs hR),
    ?_, ?_, ?_, ?_⟩
  · rcases Nat.eq_zero_or_pos revs.length with h0 | hpos
    · simp [h0]
    · simp [hpos, Nat.pos_iff_ne_zero.mp hpos]
  · intro h; subst h; simp
  · rcases Nat.eq_zero_or_pos revs.length with h0 | hpos
    · simp [h0]
    · simp only [hpos, if_pos]
      exact le_max_left _ _
  · rcases Nat.eq_zero_or_pos revs.length with h0 | hpos
    · simp [h0]
    · simp only [hpos, if_pos]
      exact max_le (by norm_num) (min_le_left _ _)

/-- Witness for C4 on a single positive review. -/
theorem claim_C4_witness :
    ∃ b, generateBusinessSummary [] [] [mkReview (.num 5) (.str "good")] = some b ∧
      b.sentimentScore = 1 ∧ -1 ≤ b.sentimentScore ∧ b.sentimentScore ≤ 1 := by
  obtain ⟨b, h1, h2, _, h4, h5⟩ := claim_C4 [] [] [mkReview (.num 5) (.str "good")] (by decide)
  have e : (if ([mkReview (.num 5) (.str "good")].length) = 0 then (0:ℚ)
      else max (-1) (min 1 ((specSentTotal [mkReview (.num 5) (.str "good")] : ℚ) /
        (([mkReview (.num 5) (.str "good")].length : Nat) : ℚ)))) = 1 := by
    with_unfolding_all decide
  exact ⟨b, h1, by rw [h2, e], h4, h5⟩

theorem isNum_elim {v : JVal} (h : v.isNum) : ∃ q : ℚ, v = .num q := by
  cases v with
  | num q => exact ⟨q, rfl⟩
  | str s => exact absurd h (by simp [JVal.isNum])
  | undefined => exact absurd h (by simp [JVal.isNum])
  | nan => exact absurd h (by simp [JVal.isNum])

theorem gbs_proj (sales : List SalesData) (inv : List InventoryData)
    (revs : List ReviewData) (b : BusinessSummary)
    (h : generateBusinessSummary sales inv revs = some b) :
    b.topProducts = topProductsOf sales ∧ b.lowStockItems = lowStockItemsOf inv ∧
    b.totalRevenue = salesTotalRevenue sales := by
  cases ht : sentimentTotal revs with
  | none =>
    unfold generateBusinessSummary at h
    rw [ht] at h
    cases h
  | some t =>
    rw [gbs_eq sales inv revs t ht] at h
    injection h with h'
    subst h'
    exact ⟨rfl, rfl, rfl⟩

/-- C5: grouping by product, summing amounts, sorting descending and
keeping five entries yields at most five products with non-increasing
numeric revenues whose sum never exceeds `totalRevenue` (sales records
with non-negative numeric amounts, per the data model). -/
theorem claim_C5 (sales : List SalesData) (inv : List InventoryData)
    (revs : List ReviewData)
    (hA : ∀ s ∈ sales, s.Amount.isNum ∧ 0 ≤ jvalQ s.Amount) :
    ∀ b, generateBusinessSummary sales inv revs = some b →
      b.topProducts.length ≤ 5 ∧
      (∀ p ∈ b.topProducts, p.2.isNum) ∧
      (b.topProducts.map revQ).Pairwise (fun x y => y ≤ x) ∧
      b.totalRevenue = .num (specTotalRevenue sales) ∧
      (b.topProducts.map revQ).sum ≤ specTotalRevenue sales := by
  intro b hb
  obtain ⟨htop, -, hrev⟩ := gbs_proj sales inv revs b hb
  have hA' : ∀ s ∈ sales, ∃ q : ℚ, s.Amount = .num q ∧ 0 ≤ q := by
    intro s hs
    obtain ⟨hnum, hpos⟩ := hA s hs
    obtain ⟨q, hq⟩ := isNum_elim hnum
    exact ⟨q, hq, by rwa [hq, jvalQ] at hpos⟩
  have hA'' : ∀ s ∈ sales, s.Amount.isNum ∨ s.Amount = .undefined :=
    fun s hs => Or.inl (hA s hs).1
  obtain ⟨hPR, hTot⟩ := productRevenue_pos_total sales hA'
  -- the code sort coincides with the plain non-increasing revenue sort
  have hcongr : (productRevenue sales).insertionSort topLe =
      (productRevenue sales).insertionSort specRevGe := by
    apply insertionSort_congr
    intro a ha c hc
    obtain ⟨x, hx, -⟩ := hPR a ha
    obtain ⟨y, hy, -⟩ := hPR c hc
    unfold topLe topCmp specRevGe
    rw [hx, hy]
    simp [jsToNumber, jvalQ]
  have hsorted : ((productRevenue sales).insertionSort specRevGe).Sorted specRevGe :=
    sorted_insertionSort_total specRevGe
      (fun a c => (le_total (jvalQ c.2) (jvalQ a.2)).imp id id)
      (fun a c d h1 h2 => le_trans h2 h1) _
  have htop' : b.topProducts =
      ((productRevenue sales).insertionSort specRevGe).take 5 := by
    rw [htop]
    unfold topProductsOf
    rw [hcongr]
    simp
  have hmemPR : ∀ p ∈ b.topProducts, ∃ q : ℚ, p.2 = JVal.num q ∧ 0 ≤ q := by
    intro p hp
    rw [htop'] at hp
    exact hPR p ((List.mem_insertionSort specRevGe).mp
      ((List.take_sublist 5 _).mem hp))
  refine ⟨?_, ?_, ?_, ?_, ?_⟩
  · rw [htop']
    exact List.length_take_le 5 _
  · intro p hp
    obtain ⟨q, hq, -⟩ := hmemPR p hp
    rw [hq]
    simp [JVal.isNum]
  · rw [htop']
    have hpw : (((productRevenue sales).insertionSort specRevGe).take 5).Pairwise
        specRevGe :=
      hsorted.sublist (List.take_sublist 5 _)
    exact (List.pairwise_map).mpr (hpw.imp (fun h => h))
  · rw [hrev]
    exact salesTotalRevenue_eq sales hA''
  · rw [htop', List.map_take]
    have hnn : ∀ x ∈ ((productRevenue sales).insertionSort specRevGe).map revQ, 0 ≤ x := by
      intro x hx
      obtain ⟨p, hp, rfl⟩ := List.mem_map.mp hx
      obtain ⟨q, hq, hqpos⟩ := hPR p ((List.mem_insertionSort specRevGe).mp hp)
      rw [revQ, hq, jvalQ]
      exact hqpos
    calc ((((productRevenue sales).insertionSort specRevGe).map revQ).take 5).sum
        ≤ (((productRevenue sales).insertionSort specRevGe).map revQ).sum :=
          sum_take_le hnn 5
      _ = ((productRevenue sales).map revQ).sum :=
          (((productRevenue sales).perm_insertionSort specRevGe).map revQ).sum_eq
      _ = specTotalRevenue sales := hTot

/-- Sales input of the C5 witness: the end-to-end scenario of the spec. -/
def c5sales : List SalesData :=
  [mkSale (.str "A") (.num 100), mkSale (.str "B") (.num 300), mkSale (.str "A") (.num 50)]

/-- Summary computed by the engine on `c5sales` alone. -/
def c5summary : BusinessSummary :=
  ⟨.num 450, 3, .num 150, [("B", .num 300), ("A", .num 150)], [], .num 0, 0⟩

/-- Witness for C5 on the spec's end-to-end sales scenario. -/
theorem claim_C5_witness :
    generateBusinessSummary c5sales [] [] = some c5summary ∧
    c5summary.topProducts.length ≤ 5 ∧
    (c5summary.topProducts.map revQ).Pairwise (fun x y => y ≤ x) ∧
    (c5summary.topProducts.map revQ).sum ≤ specTotalRevenue c5sales := by
  have hb : generateBusinessSummary c5sales [] [] = some c5summary := by
    with_unfolding_all decide
  have h := claim_C5 c5sales [] [] (by with_unfolding_all decide) c5summary hb
  exact ⟨hb, h.1, h.2.2.1, h.2.2.2.2⟩

theorem jsLt_num (x y : ℚ) : jsLt (.num x) (.num y) = decide (x < y) := rfl

/-- C3 counterexample: a record with `Stock = 3` and a present
`Min_Alert = 0` is flagged as low stock although its stock is not below
its own threshold (3 < 0 is false): `Min_Alert || 5` sends the
present-but-zero threshold to the default 5. -/
theorem claim_C3_cex :
    (generateBusinessSummary [] [mkItem (.str "X") (.num 3) (.num 0)] []).map
        BusinessSummary.lowStockItems = some [(JVal.str "X", JVal.num 3)] ∧
    ¬ ((3 : ℚ) < 0) := by
  with_unfolding_all decide

/-- C3 (amended): over inventory records with numeric stock and numeric
or absent `Min_Alert`, `lowStockItems` is exactly the records whose
stock is strictly below their own `Min_Alert` when that is present and
non-zero and below the default 5 when it is absent or zero, sorted
non-decreasing by stock and truncated to the first 10; the demo path
keeps at most 5. -/
theorem claim_C3 (sales : List SalesData) (inv : List InventoryData)
    (revs : List ReviewData)
    (hS : ∀ i ∈ inv, i.Stock.isNum)
    (hM : ∀ i ∈ inv, i.Min_Alert.isNum ∨ i.Min_Alert = .undefined) :
    ∀ b, generateBusinessSummary sales inv revs = some b →
      b.lowStockItems = specLowStock inv ∧
      (b.lowStockItems.map (fun p => jvalQ p.2)).Pairwise (fun x y => x ≤ y) ∧
      b.lowStockItems.length ≤ 10 ∧
      (demoLowStockItems inv).length ≤ 5 := by
  intro b hb
  obtain ⟨-, hlow, -⟩ := gbs_proj sales inv revs b hb
  have hfil : inv.filter (fun item => jsLt item.Stock (jsOr item.Min_Alert (.num 5))) =
      inv.filter (fun i => decide (stockQ i < effAlert i)) := by
    apply List.filter_congr
    intro i hi
    obtain ⟨s, hs⟩ := isNum_elim (hS i hi)
    rcases hM i hi with hm | hm
    · obtain ⟨m, hmq⟩ := isNum_elim hm
      by_cases hm0 : m = 0
      · subst hm0
        rw [hs, hmq]
        simp [jsLt_num, jsOr, JVal.truthy, stockQ, effAlert, jvalQ, hs, hmq]
      · rw [hs, hmq]
        simp [jsLt_num, jsOr, JVal.truthy, stockQ, effAlert, jvalQ, hs, hmq, hm0]
    · rw [hs, hm]
      simp [jsLt_num, jsOr, JVal.truthy, stockQ, effAlert, jvalQ, hs, hm]
  have hsort : (inv.filter (fun i => decide (stockQ i < effAlert i))).insertionSort stockLe =
      (inv.filter (fun i => decide (stockQ i < effAlert i))).insertionSort specStockLe := by
    apply insertionSort_congr
    intro a ha c hc
    obtain ⟨x, hx⟩ := isNum_elim (hS a (List.mem_of_mem_filter ha))
    obtain ⟨y, hy⟩ := isNum_elim (hS c (List.mem_of_mem_filter hc))
    unfold stockLe stockCmp specStockLe stockQ
    rw [hx, hy]
    simp [jsToNumber, jvalQ]
  have hlow' : b.lowStockItems = specLowStock inv := by
    rw [hlow]
    unfold lowStockItemsOf specLowStock
    rw [hfil, hsort]
  have hsorted :
      ((inv.filter (fun i => decide (stockQ i < effAlert i))).insertionSort
        specStockLe).Sorted specStockLe :=
    sorted_insertionSort_total specStockLe
      (fun a c => le_total (stockQ a) (stockQ c))
      (fun a c d h1 h2 => le_trans h1 h2) _
  refine ⟨hlow', ?_, ?_, ?_⟩
  · rw [hlow']
    unfold specLowStock
    rw [List.map_map]
    have hpw := hsorted.sublist (List.take_sublist 10 _)
    exact (List.pairwise_map).mpr (hpw.imp (fun h => h))
  · rw [hlow']
    unfold specLowStock
    rw [List.length_map]
    exact List.length_take_le 10 _
  · unfold demoLowStockItems
    rw [List.length_map]
    exact List.length_take_le 5 _

/-- Inventory input of the C3 witness: the spec's low-stock scenario. -/
def c3inv : List InventoryData :=
  [mkItem (.str "X") (.num 2) (.num 5), mkItem (.str "Y") (.num 10) (.num 5)]

/-- Summary computed by the engine on `c3inv` alone. -/
def c3summary : BusinessSummary :=
  ⟨.num 0, 0, .num 0, [], [(.str "X", .num 2)], .num 0, 0⟩

/-- Witness for C3 on the spec's low-stock scenario. -/
theorem claim_C3_witness :
    generateBusinessSummary [] c3inv [] = some c3summary ∧
    c3summary.lowStockItems = specLowStock c3inv ∧
    c3summary.lowStockItems.length ≤ 10 ∧
    (demoLowStockItems c3inv).length ≤ 5 := by
  have hb : generateBusinessSummary [] c3inv [] = some c3summary := by
    with_unfolding_all decide
  have h := claim_C3 [] c3inv [] (by decide) (by decide) c3summary hb
  exact ⟨hb, h.1, h.2.2.1, h.2.2.2⟩

/-- C8: each validator's required-field check inspects only the first
row, appending "Missing required field: f" in required-list order for
each absent name; for the non-sales validators those are all the
errors, for the sales validator they form the prefix before the
numeric-sanity errors; and `valid` holds exactly when the error list is
empty. -/
theorem claim_C8 (row : Row) (rest : List Row) :
    (validateSalesData (row :: rest)).errors =
      specMissingErrors ["Date", "Product", "Quantity", "Amount"] row ++
        typeErrorsFrom 0 ((row :: rest).take 5) ∧
    (validateInventoryData (row :: rest)).errors =
      specMissingErrors ["Product", "Stock", "Price"] row ∧
    (validateReviewData (row :: rest)).errors =
      specMissingErrors ["Date", "Rating", "Review", "Product"] row ∧
    ((validateSalesData (row :: rest)).valid = true ↔
      (validateSalesData (row :: rest)).errors = []) ∧
    ((validateInventoryData (row :: rest)).valid = true ↔
      (validateInventoryData (row :: rest)).errors = []) ∧
    ((validateReviewData (row :: rest)).valid = true ↔
      (validateReviewData (row :: rest)).errors = []) := by
  refine ⟨?_, ?_, ?_, ?_, ?_, ?_⟩ <;>
    simp [validateSalesData, validateInventoryData, validateReviewData,
      missingFieldErrors_eq, List.isEmpty_iff]

theorem missing_ne_row (f t : String) :
    ("Missing required field: " ++ f) ≠ ("Row " ++ t) := by
  intro h
  have hdata : ("Missing required field: " ++ f).data.head? =
      ("Row " ++ t).data.head? := by rw [h]
  have h1 : ("Missing required field: " ++ f).data.head? = some 'M' := rfl
  have h2 : ("Row " ++ t).data.head? = some 'R' := rfl
  rw [h1, h2] at hdata
  cases hdata

theorem qmsg_inj {i j : Nat} (hi : i < 5) (hj : j < 5)
    (h : "Row " ++ natToStr (i + 1) ++ ": Quantity must be a number" =
      "Row " ++ natToStr (j + 1) ++ ": Quantity must be a number") : i = j := by
  interval_cases i <;> interval_cases j <;> revert h <;> decide

theorem amsg_inj {i j : Nat} (hi : i < 5) (hj : j < 5)
    (h : "Row " ++ natToStr (i + 1) ++ ": Amount must be a number" =
      "Row " ++ natToStr (j + 1) ++ ": Amount must be a number") : i = j := by
  interval_cases i <;> interval_cases j <;> revert h <;> decide

theorem qmsg_ne_amsg {i j : Nat} (hi : i < 5) (hj : j < 5) :
    "Row " ++ natToStr (i + 1) ++ ": Quantity must be a number" ≠
      "Row " ++ natToStr (j + 1) ++ ": Amount must be a number" := by
  interval_cases i <;> interval_cases j <;> decide

/-- C7: on a non-empty sales row list the numeric-sanity pass examines
exactly the first five rows (the validator's whole result only depends
on them), and the 1-based row-indexed error "Row n: Quantity/Amount
must be a number" is emitted precisely when that row's field holds a
truthy non-numeric value — every such error is collected, none is
dropped by short-circuiting. -/
theorem claim_C7 (data : List Row) (i : Nat) (row : Row)
    (hne : data ≠ []) (hget : data.get? i = some row) (hi : i < 5) :
    validateSalesData data = validateSalesData (data.take 5) ∧
    (("Row " ++ natToStr (i + 1) ++ ": Quantity must be a number") ∈
        (validateSalesData data).errors ↔
      ((rowGet row "Quantity").truthy = true ∧
        jsToNumber (rowGet row "Quantity") = none)) ∧
    (("Row " ++ natToStr (i + 1) ++ ": Amount must be a number") ∈
        (validateSalesData data).errors ↔
      ((rowGet row "Amount").truthy = true ∧
        jsToNumber (rowGet row "Amount") = none)) := by
  obtain ⟨r0, rest, rfl⟩ : ∃ r0 rest, data = r0 :: rest := by
    cases data with
    | nil => exact absurd rfl hne
    | cons a l => exact ⟨a, l, rfl⟩
  have herr : (validateSalesData (r0 :: rest)).errors =
      missingFieldErrors ["Date", "Product", "Quantity", "Amount"] r0 ++
        typeErrorsFrom 0 ((r0 :: rest).take 5) := by
    simp [validateSalesData]
  have htake : ((r0 :: rest).take 5).get? i = some row := by
    rw [List.get?_take hi]
    exact hget
  have hnotmissing : ∀ t : String,
      ("Row " ++ t) ∉ missingFieldErrors ["Date", "Product", "Quantity", "Amount"] r0 := by
    intro t hmem
    rw [missingFieldErrors_eq] at hmem
    obtain ⟨f, -, heq⟩ := List.mem_map.mp hmem
    exact missing_ne_row f t heq
  have hmemQ : ∀ e : String, e ∈ (validateSalesData (r0 :: rest)).errors ↔
      (e ∈ missingFieldErrors ["Date", "Product", "Quantity", "Amount"] r0 ∨
        e ∈ typeErrorsFrom 0 ((r0 :: rest).take 5)) := by
    intro e
    rw [herr, List.mem_append]
  constructor
  · have h5 : (r0 :: rest).take 5 = r0 :: rest.take 4 := rfl
    have h6 : (r0 :: rest.take 4).take 5 = r0 :: rest.take 4 := by
      have h44 : (rest.take 4).take 4 = rest.take 4 := by
        simp [List.take_take]
      calc (r0 :: rest.take 4).take 5 = r0 :: (rest.take 4).take 4 := rfl
        _ = r0 :: rest.take 4 := by rw [h44]
    simp [validateSalesData, h5, h6]
  constructor
  · rw [hmemQ]
    constructor
    · rintro (hmem | hmem)
      · exact absurd hmem (by
          have := hnotmissing (natToStr (i + 1) ++ ": Quantity must be a number")
          rwa [← String.append_assoc] at this)
      · obtain ⟨j, row', hj, hmem'⟩ := (mem_typeErrorsFrom _ 0).mp hmem
        have hjlt : j < 5 := by
          have hlen := (List.get?_eq_some.mp hj).1
          exact lt_of_lt_of_le hlen (List.length_take_le 5 _)
        simp only [Nat.zero_add] at hmem'
        rw [rowTypeErrors, List.mem_append, mem_ite_singleton, mem_ite_singleton] at hmem'
        rcases hmem' with ⟨hcond, heq⟩ | ⟨hcond, heq⟩
        · have hij : i = j := qmsg_inj hi hjlt heq
          subst hij
          rw [htake] at hj
          injection hj with hj'
          subst hj'
          rw [Bool.and_eq_true] at hcond
          exact ⟨hcond.1, Option.isNone_iff_eq_none.mp hcond.2⟩
        · exact absurd heq (qmsg_ne_amsg hi hjlt)
    · rintro ⟨h1, h2⟩
      refine Or.inr ((mem_typeErrorsFrom _ 0).mpr ⟨i, row, htake, ?_⟩)
      simp only [Nat.zero_add]
      rw [rowTypeErrors, List.mem_append, mem_ite_singleton]
      exact Or.inl ⟨by rw [Bool.and_eq_true]; exact ⟨h1, Option.isNone_iff_eq_none.mpr h2⟩, rfl⟩
  · rw [hmemQ]
    constructor
    · rintro (hmem | hmem)
      · exact absurd hmem (by
          have := hnotmissing (natToStr (i + 1) ++ ": Amount must be a number")
          rwa [← String.append_assoc] at this)
      · obtain ⟨j, row', hj, hmem'⟩ := (mem_typeErrorsFrom _ 0).mp hmem
        have hjlt : j < 5 := by
          have hlen := (List.get?_eq_some.mp hj).1
          exact lt_of_lt_of_le hlen (List.length_take_le 5 _)
        simp only [Nat.zero_add] at hmem'
        rw [rowTypeErrors, List.mem_append, mem_ite_singleton, mem_ite_singleton] at hmem'
        rcases hmem' with ⟨hcond, heq⟩ | ⟨hcond, heq⟩
        · exact absurd heq.symm (qmsg_ne_amsg hjlt hi)
        · have hij : i = j := amsg_inj hi hjlt heq
          subst hij
          rw [htake] at hj
          injection hj with hj'
          subst hj'
          rw [Bool.and_eq_true] at hcond
          exact ⟨hcond.1, Option.isNone_iff_eq_none.mp hcond.2⟩
    · rintro ⟨h1, h2⟩
      refine Or.inr ((mem_typeErrorsFrom _ 0).mpr ⟨i, row, htake, ?_⟩)
      simp only [Nat.zero_add]
      rw [rowTypeErrors, List.mem_append, mem_ite_singleton]
      refine Or.inr (mem_ite_singleton.mpr
        ⟨by rw [Bool.and_eq_true]; exact ⟨h1, Option.isNone_iff_eq_none.mpr h2⟩, rfl⟩)

/-- Witness for C7: a single row whose Quantity is the non-numeric
string "abc" produces exactly the row-1 Quantity error. -/
theorem claim_C7_witness :
    ("Row " ++ natToStr 1 ++ ": Quantity must be a number") ∈
      (validateSalesData [[("Quantity", JVal.str "abc")]]).errors := by
  have h := claim_C7 [[("Quantity", JVal.str "abc")]] 0 [("Quantity", JVal.str "abc")]
    (by decide) (by decide) (by decide)
  exact h.2.1.mpr ⟨by decide, by decide⟩
